import Mathlib

/-!
Shallow embedding of `wenuclient.py`, a Python client library that maps a
remote resource-oriented HTTP API (an Eve server) into in-process entity
types.  The HTTP transport (`requests.Session`) is modelled as a pure
function from requests to responses; JSON bodies are modelled by the `Json`
inductive; Python dictionaries are modelled as association lists with
insert-overwrite semantics matching `dict.__setitem__`.  Every client
operation additionally returns the list of HTTP requests it issued, so that
claims about *which* requests are sent (and whether any are sent at all)
can be stated.
-/

/-- JSON values, the bodies of HTTP requests and responses.  Objects keep
their key order, matching Python dicts decoded by `json.loads`. -/
inductive Json where
  | null : Json
  | bool : Bool → Json
  | num : Int → Json
  | str : String → Json
  | arr : List Json → Json
  | obj : List (String × Json) → Json
deriving Repr

/-- Lookup in a Python dict modelled as an association list
(`d[k]` / `d.get(k)`): the first (unique) binding of the key. -/
def assocLookup {α : Type} (l : List (String × α)) (k : String) : Option α :=
  match l with
  | [] => none
  | (k', v) :: rest => if k' = k then some v else assocLookup rest k

/-- `d[k] = v` on a Python dict: overwrite the binding in place when the
key is present, append it otherwise (insertion order is preserved, as in
CPython dicts). -/
def dictInsert {α : Type} (l : List (String × α)) (k : String) (v : α) :
    List (String × α) :=
  match l with
  | [] => [(k, v)]
  | (k', v') :: rest =>
    if k' = k then (k, v) :: rest else (k', v') :: dictInsert rest k v

/-- `d.update(kvs)` on a Python dict: insert every binding of `kvs` in
order, overwriting existing keys. -/
def dictUpdate {α : Type} (l : List (String × α)) (kvs : List (String × α)) :
    List (String × α) :=
  kvs.foldl (fun d kv => dictInsert d kv.1 kv.2) l

/-- One step of Python's `str.title()` over the character list: an
alphabetic character is uppercased after a non-cased character and
lowercased after a cased one (ASCII reading of CPython's titlecasing). -/
def pyTitleChars : List Char → Bool → List Char
  | [], _ => []
  | c :: cs, prevCased =>
    if c.isAlpha then
      (if prevCased then c.toLower else c.toUpper) :: pyTitleChars cs true
    else
      c :: pyTitleChars cs false

/-- Python's `s.title()`. -/
def pyTitle (s : String) : String := String.mk (pyTitleChars s.data false)

/-- Python's `s.replace('_', '')`. -/
def stripUnderscores (s : String) : String :=
  String.mk (s.data.filter (fun c => c ≠ '_'))

/-- The normalized entity-type name derived in `Client._spawn_entities`:
`child['title'].title().replace('_', '')`. -/
def normalizeTitle (s : String) : String := stripUnderscores (pyTitle s)

/-- A `{title, href}` entry of the discovery response's `_links.child`
list (or of the statically injected extra entities). -/
structure ResourceDescriptor where
  title : String
  href : String
deriving Repr, DecidableEq

/-- The class produced by `Entity.spawn_subclass(title, link, server)`:
a type named `title` carrying class attributes `link` and `server`.
`σ` is the type of the owning client (kept abstract to avoid the
client/entity reference cycle of the Python code). -/
structure EntityVariant (σ : Type) where
  name : String
  link : String
  server : σ
deriving Repr, DecidableEq

/-- The statically injected pseudo-resources of `Client.__init__`
(`extra_entities`): `measurement` is not reported by Eve's discovery, so
the client registers it manually. -/
def extraEntities : List ResourceDescriptor :=
  [⟨"Measurement", "measurement"⟩]

/-- The entity-spawning loop of `Client._spawn_entities`, given the
discovery response's `_links.child` list and the `insert` argument:
appends `insert` to the children, then for each entry stores
`Entity.spawn_subclass(title, href, self)` in the `entities` dict under
the normalized title. -/
def spawn_entities {σ : Type} (srv : σ) (children : List ResourceDescriptor)
    (insert : Option (List ResourceDescriptor)) :
    List (String × EntityVariant σ) :=
  let merged :=
    match insert with
    | none => children
    | some extra => children ++ extra
  merged.foldl
    (fun entities child =>
      dictInsert entities (normalizeTitle child.title)
        ⟨normalizeTitle child.title, child.href, srv⟩)
    []

/-- The entity map built by `Client.__init__`: `_spawn_entities` with the
static `extra_entities` inserted after the discovered children. -/
def clientInitEntities {σ : Type} (srv : σ)
    (children : List ResourceDescriptor) : List (String × EntityVariant σ) :=
  spawn_entities srv children (some extraEntities)

/-- `Client.__getattr__`: resolve a resource name against the entity map;
`none` models the `AttributeError` raised on a missing key. -/
def clientGetattr {σ : Type} (entities : List (String × EntityVariant σ))
    (attr : String) : Option (EntityVariant σ) :=
  assocLookup entities attr

example : normalizeTitle "measurement" = "Measurement" := by decide
example : normalizeTitle "some_resource" = "SomeResource" := by decide
example : normalizeTitle "Book" = "Book" := by decide

/-- HTTP methods used by the client. -/
inductive Method where
  | GET : Method
  | POST : Method
  | PUT : Method
  | DELETE : Method
deriving Repr, DecidableEq

/-- An HTTP request as issued through the `requests.Session`: method, full
URL, optional JSON payload (`json=` keyword), and the optional `If-Match`
header value (the etag passed through `headers={'If-Match': etag}`; the
code only attaches the header when the etag is not `None`). -/
structure Request where
  method : Method
  url : String
  payload : Option Json
  ifMatch : Option Json
deriving Repr

/-- An HTTP response (`requests.Response`): status code and decoded JSON
body (`json.loads(response.text)` is folded into the model, the transport
being external). -/
structure HttpResponse where
  status_code : Nat
  body : Json
deriving Repr

/-- The HTTP transport: how the server answers each request.  Modelling it
as a pure function keeps every verb a deterministic function of the
session. -/
def Transport : Type := Request → HttpResponse

/-- The exceptions the client can raise.  `httpError` models
`requests.HTTPError` from `raise_for_status`; `keyError` models Python's
`KeyError` (the spec's `PreconditionError` for save/remove without `_id`);
`assertionError` models the failed `assert` in `Entity.get_by_id` (the
spec's `PreconditionError` for the non-indexable pseudo-resource);
`typeError` models Python `TypeError`s from using a non-mapping where a
mapping is required. -/
inductive ClientError where
  | httpError : Nat → ClientError
  | keyError : String → ClientError
  | assertionError : ClientError
  | typeError : ClientError
deriving Repr, DecidableEq

/-- `requests.Response.raise_for_status` raises exactly for status codes
in `[400, 600)`. -/
def isErrorStatus (s : Nat) : Bool := 400 ≤ s && s < 600

/-- The `validate_and_jsonify` decorator applied to a raw response:
`raise_for_status`, then return the decoded JSON body. -/
def validateAndJsonify (r : HttpResponse) : Except ClientError Json :=
  if isErrorStatus r.status_code then
    Except.error (ClientError.httpError r.status_code)
  else
    Except.ok r.body

/-- The client's connection state used by the verb methods: base URL and
the session's transport. -/
structure Client where
  url : String
  session : Transport

/-- `'/'.join((self.url, route))`. -/
def joinUrl (url route : String) : String := url ++ "/" ++ route

/-- `Client.get` (decorated with `validate_and_jsonify`): issue a GET to
`{url}/{route}`, raise on an error status, return the decoded body.  The
second component is the request trace. -/
def clientGet (cl : Client) (route : String) :
    Except ClientError Json × List Request :=
  let req : Request := ⟨Method.GET, joinUrl cl.url route, none, none⟩
  (validateAndJsonify (cl.session req), [req])

/-- `Client.put`: PUT the JSON payload to `{url}/{route}`, with the etag
as an `If-Match` header when it is not `None`. -/
def clientPut (cl : Client) (route : String) (payload : Json)
    (etag : Option Json) : Except ClientError Json × List Request :=
  let req : Request := ⟨Method.PUT, joinUrl cl.url route, some payload, etag⟩
  (validateAndJsonify (cl.session req), [req])

/-- `Client.post`: POST the JSON payload to `{url}/{route}`. -/
def clientPost (cl : Client) (route : String) (payload : Json) :
    Except ClientError Json × List Request :=
  let req : Request := ⟨Method.POST, joinUrl cl.url route, some payload, none⟩
  (validateAndJsonify (cl.session req), [req])

/-- The body of `Client.delete` before the decorator: GET the route, then
DELETE it (with `If-Match` when the etag is not `None`), and synthesize a
`Response` whose status code is the DELETE's and whose content is the
GET's.  Neither intermediate response goes through `raise_for_status`
here. -/
def deleteInner (cl : Client) (route : String) (etag : Option Json) :
    HttpResponse × List Request :=
  let greq : Request := ⟨Method.GET, joinUrl cl.url route, none, none⟩
  let gresp := cl.session greq
  let dreq : Request := ⟨Method.DELETE, joinUrl cl.url route, none, etag⟩
  let dresp := cl.session dreq
  (⟨dresp.status_code, gresp.body⟩, [greq, dreq])

/-- `Client.delete` (decorated): the synthesized response is validated and
decoded, so the raised-or-returned outcome depends only on the DELETE's
status code while the body is the GET's. -/
def clientDelete (cl : Client) (route : String) (etag : Option Json) :
    Except ClientError Json × List Request :=
  let (resp, trace) := deleteInner cl route etag
  (validateAndJsonify resp, trace)

/-- Escape one character as Python's `json.dumps` does for the characters
the client can produce (ASCII payloads). -/
def jsonEscapeChar (c : Char) : String :=
  if c = '"' then "\\\""
  else if c = '\\' then "\\\\"
  else if c = '\n' then "\\n"
  else if c = '\t' then "\\t"
  else if c = '\r' then "\\r"
  else String.mk [c]

/-- `json.dumps` of a string (double-quoted, escaped). -/
def jsonDumpStr (s : String) : String :=
  "\"" ++ String.join (s.data.map jsonEscapeChar) ++ "\""

mutual

/-- Python's `json.dumps` with default separators (`', '` and `': '`), as
used by `Entity.where` / `Entity.embedded` to encode keyword filters. -/
def jsonDumps : Json → String
  | Json.null => "null"
  | Json.bool b => if b then "true" else "false"
  | Json.num n => toString n
  | Json.str s => jsonDumpStr s
  | Json.arr xs => "[" ++ jsonDumpsList xs ++ "]"
  | Json.obj kvs => "\x7b" ++ jsonDumpsObj kvs ++ "\x7d"

/-- `json.dumps` of a list's elements, comma-separated. -/
def jsonDumpsList : List Json → String
  | [] => ""
  | [x] => jsonDumps x
  | x :: xs => jsonDumps x ++ ", " ++ jsonDumpsList xs

/-- `json.dumps` of an object's bindings, comma-separated. -/
def jsonDumpsObj : List (String × Json) → String
  | [] => ""
  | [(k, v)] => jsonDumpStr k ++ ": " ++ jsonDumps v
  | (k, v) :: kvs => jsonDumpStr k ++ ": " ++ jsonDumps v ++ ", " ++ jsonDumpsObj kvs

end

/-- Python's `str()` of a JSON value, as used by `'{}/{}'.format(...)` to
build by-id routes.  Exact for the scalar values routes are built from
(ints and strings); containers use their JSON rendering as a stand-in for
Python's `repr`-based rendering, which no claim exercises. -/
def pyStr : Json → String
  | Json.null => "None"
  | Json.bool b => if b then "True" else "False"
  | Json.num n => toString n
  | Json.str s => s
  | Json.arr xs => "[" ++ jsonDumpsList xs ++ "]"
  | Json.obj kvs => "\x7b" ++ jsonDumpsObj kvs ++ "\x7d"

/-- An `Entity` instance's own state: the `fields` dict set by
`__init__`, the remaining instance `__dict__` entries created by
`__setattr__`'s fallthrough branch (`objAttrs`), and the `initialized`
flag. -/
structure EntityInstance where
  fields : List (String × Json)
  objAttrs : List (String × Json)
  initialized : Bool
deriving Repr

/-- `Entity.__init__(**kwargs)`: the keyword arguments become `fields`,
the instance is marked initialized, and no other instance attributes
exist. -/
def entityInit (kwargs : List (String × Json)) : EntityInstance :=
  ⟨kwargs, [], true⟩

/-- Attribute read on an `Entity` instance, for data attributes: Python
first finds names in the instance `__dict__` (our `objAttrs`), and only
when that fails calls `Entity.__getattr__`, which looks the name up in
`fields` and raises `AttributeError` (modelled by `none`) on a miss. -/
def entityGetattr (e : EntityInstance) (attr : String) : Option Json :=
  match assocLookup e.objAttrs attr with
  | some v => some v
  | none => assocLookup e.fields attr

/-- `Entity.__setattr__`: once `initialized` is in the instance
`__dict__`, writes to names already present in `fields` rewrite that
mapping entry; every other write falls through to
`object.__setattr__`, i.e. becomes an ordinary instance attribute. -/
def entitySetattr (e : EntityInstance) (attr : String) (v : Json) :
    EntityInstance :=
  if e.initialized && (assocLookup e.fields attr).isSome then
    { e with fields := dictInsert e.fields attr v }
  else
    { e with objAttrs := dictInsert e.objAttrs attr v }

/-- `Entity.regular_fields`: the entries of `fields` whose key does not
start with `_`. -/
def regular_fields (e : EntityInstance) : List (String × Json) :=
  e.fields.filter (fun kv =>
    match kv.1.data with
    | [] => true
    | c :: _ => c ≠ '_')

/-- `results['_items']`, evaluated when the generator expression of
`where`/`embedded`/`list` is built: the `_items` entry of the decoded
collection envelope.  A missing key raises `KeyError`; a non-object
envelope or a non-array `_items` raises a `TypeError`-class failure. -/
def getItems : Json → Except ClientError (List Json)
  | Json.obj kvs =>
    match assocLookup kvs "_items" with
    | some (Json.arr rows) => Except.ok rows
    | some _ => Except.error ClientError.typeError
    | none => Except.error (ClientError.keyError "_items")
  | _ => Except.error ClientError.typeError

/-- `cls(**row)` for one row of `_items`, performed lazily by the
generator when it is iterated: a row must be an object to be splatted as
keyword arguments. -/
def rowToInstance : Json → Except ClientError EntityInstance
  | Json.obj kvs => Except.ok (entityInit kvs)
  | _ => Except.error ClientError.typeError

/-- The eager part shared by the query methods:
`results = cls.server.get(link)` followed by the immediate evaluation of
`results['_items']` as the generator's iterable.  Returns the pending
rows (the created generator's remaining items) or the exception raised
during the call itself. -/
def fetchItems (cl : Client) (route : String) :
    Except ClientError (List Json) × List Request :=
  match clientGet cl route with
  | (Except.ok body, trace) => (getItems body, trace)
  | (Except.error e, trace) => (Except.error e, trace)

/-- Iterating the returned generator to exhaustion: each pending row is
turned into an instance by `cls(**row)`; no HTTP request is issued. -/
def forceRows (rows : List Json) : List (Except ClientError EntityInstance) :=
  rows.map rowToInstance

/-- `Entity.where(options=None, **kwargs)`: build
`link?where=json.dumps(kwargs)`, append `&options` when given, GET it
eagerly, and hand the envelope's `_items` to a generator expression. -/
def entityWhere (v : EntityVariant Client) (options : Option String)
    (kwargs : List (String × Json)) :
    Except ClientError (List Json) × List Request :=
  let link := v.link ++ "?where=" ++ jsonDumps (Json.obj kwargs)
  let link :=
    match options with
    | none => link
    | some o => link ++ "&" ++ o
  fetchItems v.server link

/-- `Entity.embedded(options=None, **kwargs)`: identical to `where` except
that the filters are encoded under the `embedded=` query parameter. -/
def entityEmbedded (v : EntityVariant Client) (options : Option String)
    (kwargs : List (String × Json)) :
    Except ClientError (List Json) × List Request :=
  let link := v.link ++ "?embedded=" ++ jsonDumps (Json.obj kwargs)
  let link :=
    match options with
    | none => link
    | some o => link ++ "&" ++ o
  fetchItems v.server link

/-- Modelled from the spec, for the refinement claim: "both eagerly issue
exactly one GET to link?param=JSON-filters (with options appended after
`&`), unwrap the response's `_items` array, and yield instances
constructed from its rows in order" — the common behaviour of `where` and
`embedded`, parameterized by the query-parameter name. -/
def queryVia (param : String) (v : EntityVariant Client)
    (options : Option String) (kwargs : List (String × Json)) :
    Except ClientError (List Json) × List Request :=
  let link := v.link ++ "?" ++ param ++ "=" ++ jsonDumps (Json.obj kwargs)
  let link :=
    match options with
    | none => link
    | some o => link ++ "&" ++ o
  fetchItems v.server link

/-- `Entity.get_by_id(_id, options=None)`: the `assert cls.link !=
'measurement'` fires before anything else (no request is issued); then
`link/id` (with `?options` when given) is fetched and the single returned
row is splatted into a new instance. -/
def entityGetById (v : EntityVariant Client) (id : Json)
    (options : Option String) :
    Except ClientError EntityInstance × List Request :=
  if v.link = "measurement" then
    (Except.error ClientError.assertionError, [])
  else
    let route :=
      match options with
      | none => v.link ++ "/" ++ pyStr id
      | some o => v.link ++ "/" ++ pyStr id ++ "?" ++ o
    match clientGet v.server route with
    | (Except.ok body, trace) =>
      (rowToInstance body, trace)
    | (Except.error e, trace) => (Except.error e, trace)

/-- `Entity.save()`: `self.fields['_id']` is read first (raising
`KeyError` before any request when absent), then the regular fields are
PUT to `link/_id` with `self.fields.get('_etag', None)` as the etag.  The
returned triple is (result, request trace, the instance after the call):
`save` never touches `self.fields`. -/
def entitySave (v : EntityVariant Client) (e : EntityInstance) :
    Except ClientError Json × List Request × EntityInstance :=
  match assocLookup e.fields "_id" with
  | none => (Except.error (ClientError.keyError "_id"), [], e)
  | some idv =>
    let (res, trace) :=
      clientPut v.server (v.link ++ "/" ++ pyStr idv)
        (Json.obj (regular_fields e)) (assocLookup e.fields "_etag")
    (res, trace, e)

/-- `Entity.remove()`: `self.fields['_id']` is read first (raising
`KeyError` before any request when absent), then `link/_id` is deleted
with `self.fields.get('_etag', None)` as the etag; the local instance is
not invalidated. -/
def entityRemove (v : EntityVariant Client) (e : EntityInstance) :
    Except ClientError Json × List Request × EntityInstance :=
  match assocLookup e.fields "_id" with
  | none => (Except.error (ClientError.keyError "_id"), [], e)
  | some idv =>
    let (res, trace) :=
      clientDelete v.server (v.link ++ "/" ++ pyStr idv)
        (assocLookup e.fields "_etag")
    (res, trace, e)

/-- `Entity.create()`: POST the entire `fields` dict to `link`; on
success, `self.fields.update(response)` merges every key of the decoded
response into the mapping (a non-mapping response raises `TypeError` and
leaves the fields untouched); the decoded response is returned. -/
def entityCreate (v : EntityVariant Client) (e : EntityInstance) :
    Except ClientError Json × List Request × EntityInstance :=
  let (res, trace) := clientPost v.server v.link (Json.obj e.fields)
  match res with
  | Except.error err => (Except.error err, trace, e)
  | Except.ok (Json.obj kvs) =>
    (Except.ok (Json.obj kvs), trace, { e with fields := dictUpdate e.fields kvs })
  | Except.ok _ => (Except.error ClientError.typeError, trace, e)

/-- A transport on which every request succeeds with an empty object. -/
def okTransport : Transport := fun _ => ⟨200, Json.obj []⟩

/-- A demo client over `okTransport`. -/
def demoClient : Client := ⟨"http://server", okTransport⟩

/-- The `Book` entity variant bound to `demoClient`. -/
def bookVariant : EntityVariant Client := ⟨"Book", "book", demoClient⟩

/-- The injected `Measurement` pseudo-resource variant bound to
`demoClient`. -/
def measurementVariant : EntityVariant Client := ⟨"Measurement", "measurement", demoClient⟩

/-- A transport on which every request fails with status 500. -/
def allFailTransport : Transport := fun _ => ⟨500, Json.null⟩

/-- A client over `allFailTransport`. -/
def failClient : Client := ⟨"http://server", allFailTransport⟩

/-- The `Book` variant bound to the always-failing client. -/
def failBookVariant : EntityVariant Client := ⟨"Book", "book", failClient⟩

/-- A transport on which every GET fails with 404 while every other verb
succeeds (DELETE answers 204). -/
def getFailTransport : Transport := fun r =>
  match r.method with
  | Method.GET => ⟨404, Json.str "last row"⟩
  | _ => ⟨204, Json.null⟩

/-- A client over `getFailTransport`. -/
def getFailClient : Client := ⟨"http://server", getFailTransport⟩

/-- A transport whose POST answers 201 with server-assigned identity
fields. -/
def createdTransport : Transport := fun r =>
  match r.method with
  | Method.POST => ⟨201, Json.obj [("_id", Json.str "42"), ("_etag", Json.str "t1")]⟩
  | _ => ⟨200, Json.obj []⟩

/-- A client over `createdTransport`. -/
def createClient : Client := ⟨"http://server", createdTransport⟩

/-- The `Book` variant bound to `createClient`. -/
def createBookVariant : EntityVariant Client := ⟨"Book", "book", createClient⟩

/-- A persisted row instance: has `_id`, `_etag` and one regular field. -/
def saveDemoEntity : EntityInstance :=
  entityInit [("_id", Json.str "7"), ("_etag", Json.str "abc"), ("x", Json.num 3)]

/-- A fresh, never-persisted instance with one regular and one
underscore-prefixed field. -/
def freshDemoEntity : EntityInstance :=
  entityInit [("x", Json.num 1), ("_tmp", Json.num 0)]

/-- An instance without `_id`. -/
def noIdEntity : EntityInstance := entityInit [("x", Json.num 1)]

theorem assocLookup_dictInsert {α : Type} (d : List (String × α)) (k k' : String)
    (v : α) :
    assocLookup (dictInsert d k v) k' =
      if k = k' then some v else assocLookup d k' := by
  induction d with
  | nil => simp [dictInsert, assocLookup]
  | cons hd tl ih =>
    obtain ⟨k0, v0⟩ := hd
    by_cases h0 : k0 = k
    · subst h0
      simp only [dictInsert, if_pos rfl, assocLookup]
      by_cases h1 : k0 = k' <;> simp [h1]
    · simp only [dictInsert, if_neg h0, assocLookup, ih]
      by_cases h1 : k0 = k'
      · subst h1
        have hkk0 : k ≠ k0 := fun h => h0 h.symm
        simp [hkk0]
      · simp [h1]

theorem assocLookup_eq_none_iff {α : Type} (d : List (String × α)) (k : String) :
    assocLookup d k = none ↔ k ∉ d.map Prod.fst := by
  induction d with
  | nil => simp [assocLookup]
  | cons hd tl ih =>
    obtain ⟨k0, v0⟩ := hd
    by_cases h0 : k0 = k
    · subst h0
      simp [assocLookup]
    · have hkk0 : k ≠ k0 := fun h => h0 h.symm
      simp [assocLookup, h0, ih, hkk0]

theorem dictInsert_keys {α : Type} (d : List (String × α)) (k : String) (v : α) :
    (dictInsert d k v).map Prod.fst =
      if (assocLookup d k).isSome then d.map Prod.fst
      else d.map Prod.fst ++ [k] := by
  induction d with
  | nil => simp [dictInsert, assocLookup]
  | cons hd tl ih =>
    obtain ⟨k0, v0⟩ := hd
    by_cases h0 : k0 = k
    · subst h0
      simp [dictInsert, assocLookup]
    · simp only [dictInsert, if_neg h0, assocLookup, List.map_cons, ih]
      by_cases h1 : (assocLookup tl k).isSome
      · simp [h1]
      · simp [h1]

theorem dictInsert_keys_nodup {α : Type} (d : List (String × α)) (k : String)
    (v : α) (h : (d.map Prod.fst).Nodup) :
    ((dictInsert d k v).map Prod.fst).Nodup := by
  rw [dictInsert_keys]
  cases hc : assocLookup d k with
  | some w => simpa [hc] using h
  | none =>
    have hnotin : k ∉ d.map Prod.fst := (assocLookup_eq_none_iff d k).mp hc
    simp only [hc, Option.isSome_none, Bool.false_eq_true, if_false]
    rw [List.nodup_append]
    refine ⟨h, List.nodup_singleton k, ?_⟩
    intro a ha hak
    simp only [List.mem_singleton] at hak
    exact hnotin (hak ▸ ha)

theorem foldl_dictInsert_lookup {α β : Type} (key : β → String) (val : β → α)
    (l : List β) (init : List (String × α)) (k : String) :
    assocLookup (l.foldl (fun d c => dictInsert d (key c) (val c)) init) k =
      (match l.reverse.find? (fun c => key c == k) with
       | some c => some (val c)
       | none => assocLookup init k) := by
  induction l generalizing init with
  | nil => simp
  | cons c cs ih =>
    simp only [List.foldl_cons, List.reverse_cons, List.find?_append, ih]
    cases hf : cs.reverse.find? (fun c => key c == k) with
    | some c' => simp [Option.or]
    | none =>
      simp only [Option.or]
      rw [assocLookup_dictInsert]
      by_cases hk : key c = k
      · have hb : (key c == k) = true := by simp [hk]
        simp [List.find?, hb, hk]
      · have hb : (key c == k) = false := by simp [hk]
        simp [List.find?, hb, hk]

theorem foldl_dictInsert_keys_nodup {α β : Type} (key : β → String)
    (val : β → α) (l : List β) (init : List (String × α))
    (h : (init.map Prod.fst).Nodup) :
    (((l.foldl (fun d c => dictInsert d (key c) (val c)) init)).map
      Prod.fst).Nodup := by
  induction l generalizing init with
  | nil => simpa using h
  | cons c cs ih =>
    simp only [List.foldl_cons]
    exact ih _ (dictInsert_keys_nodup _ _ _ h)

/-- C2: field-mapping round trip and asymmetric assignment.  Constructing
an `Entity` from keyword fields a=1, b=2 and reading `.a`/`.b` yields 1
and 2; reassigning `.a = 5` rewrites only that field-mapping entry and
leaves `.b` (and the object-attribute namespace) unchanged; assigning the
previously-absent name `.c = 9` makes `.c` readable but stores it as an
ordinary object attribute, so the field mapping is untouched and `c` is
absent from `regular_fields()` — until it is inserted into the mapping
itself, after which it does appear. -/
theorem entity_field_mapping_round_trip :
    entityGetattr (entityInit [("a", Json.num 1), ("b", Json.num 2)]) "a" =
      some (Json.num 1) ∧
    entityGetattr (entityInit [("a", Json.num 1), ("b", Json.num 2)]) "b" =
      some (Json.num 2) ∧
    (entitySetattr (entityInit [("a", Json.num 1), ("b", Json.num 2)]) "a"
        (Json.num 5)).fields = [("a", Json.num 5), ("b", Json.num 2)] ∧
    (entitySetattr (entityInit [("a", Json.num 1), ("b", Json.num 2)]) "a"
        (Json.num 5)).objAttrs = [] ∧
    entityGetattr
      (entitySetattr (entityInit [("a", Json.num 1), ("b", Json.num 2)]) "a"
        (Json.num 5)) "b" = some (Json.num 2) ∧
    entityGetattr
      (entitySetattr
        (entitySetattr (entityInit [("a", Json.num 1), ("b", Json.num 2)]) "a"
          (Json.num 5)) "c" (Json.num 9)) "c" = some (Json.num 9) ∧
    (entitySetattr
      (entitySetattr (entityInit [("a", Json.num 1), ("b", Json.num 2)]) "a"
        (Json.num 5)) "c" (Json.num 9)).fields =
      [("a", Json.num 5), ("b", Json.num 2)] ∧
    assocLookup
      (regular_fields
        (entitySetattr
          (entitySetattr (entityInit [("a", Json.num 1), ("b", Json.num 2)])
            "a" (Json.num 5)) "c" (Json.num 9))) "c" = none ∧
    assocLookup
      (regular_fields
        { entitySetattr
            (entitySetattr (entityInit [("a", Json.num 1), ("b", Json.num 2)])
              "a" (Json.num 5)) "c" (Json.num 9) with
          fields :=
            dictInsert
              (entitySetattr
                (entitySetattr
                  (entityInit [("a", Json.num 1), ("b", Json.num 2)]) "a"
                  (Json.num 5)) "c" (Json.num 9)).fields "c" (Json.num 9) })
      "c" = some (Json.num 9) := by
  refine ⟨?_, ?_, ?_, ?_, ?_, ?_, ?_, ?_, ?_⟩ <;> rfl

/-- C5: `get_by_id` on any entity variant whose link is `measurement`
(the injected pseudo-resource backed by InfluxDB) fails on the
`assert cls.link != 'measurement'` — the spec's `PreconditionError` —
before issuing any HTTP request, for every id and query-option value. -/
theorem get_by_id_measurement_precondition (v : EntityVariant Client)
    (id : Json) (options : Option String) (h : v.link = "measurement") :
    entityGetById v id options = (Except.error ClientError.assertionError, []) := by
  simp [entityGetById, h]

/-- C5 witness: `Measurement.getById(1)` on the demo client raises before
any network call. -/
theorem get_by_id_measurement_precondition_witness :
    measurementVariant.link = "measurement" ∧
    entityGetById measurementVariant (Json.num 1) none =
      (Except.error ClientError.assertionError, []) :=
  ⟨rfl, get_by_id_measurement_precondition measurementVariant (Json.num 1) none rfl⟩

/-- C7: `save()` and `remove()` on an instance whose field mapping lacks
`_id` raise Python's `KeyError` (the spec's `PreconditionError`-class
failure) while evaluating `self.fields['_id']`, before any HTTP request
is issued — the request trace is empty and the instance is unchanged. -/
theorem save_remove_without_id_no_request (v : EntityVariant Client)
    (e : EntityInstance) (h : assocLookup e.fields "_id" = none) :
    entitySave v e = (Except.error (ClientError.keyError "_id"), [], e) ∧
    entityRemove v e = (Except.error (ClientError.keyError "_id"), [], e) := by
  constructor <;> simp [entitySave, entityRemove, h]

/-- C7 witness: saving/removing a never-persisted instance fails with the
`KeyError` and issues nothing. -/
theorem save_remove_without_id_no_request_witness :
    assocLookup noIdEntity.fields "_id" = none ∧
    entitySave bookVariant noIdEntity =
      (Except.error (ClientError.keyError "_id"), [], noIdEntity) ∧
    entityRemove bookVariant noIdEntity =
      (Except.error (ClientError.keyError "_id"), [], noIdEntity) :=
  ⟨rfl,
   (save_remove_without_id_no_request bookVariant noIdEntity rfl).1,
   (save_remove_without_id_no_request bookVariant noIdEntity rfl).2⟩

/-- C6: on an instance whose field mapping contains `_id`, `save()`
issues exactly one PUT to `link/_id` whose JSON payload is exactly the
field-mapping entries not starting with `_` (`regular_fields`), with the
mapping's `_etag` (when present) as the `If-Match` precondition, and the
instance after the call is the instance before it — `save` never merges
the server response back, so the local `_etag` entry survives unchanged. -/
theorem entity_save_puts_regular_fields (v : EntityVariant Client)
    (e : EntityInstance) (idv : Json)
    (h : assocLookup e.fields "_id" = some idv) :
    entitySave v e =
      (validateAndJsonify
         (v.server.session
           ⟨Method.PUT, joinUrl v.server.url (v.link ++ "/" ++ pyStr idv),
            some (Json.obj (regular_fields e)), assocLookup e.fields "_etag"⟩),
       [⟨Method.PUT, joinUrl v.server.url (v.link ++ "/" ++ pyStr idv),
         some (Json.obj (regular_fields e)), assocLookup e.fields "_etag"⟩],
       e) := by
  simp [entitySave, clientPut, h]

/-- C6 witness: saving a persisted row PUTs only the regular fields with
the `_etag` attached, and leaves the local mapping (including `_etag`)
intact. -/
theorem entity_save_puts_regular_fields_witness :
    assocLookup saveDemoEntity.fields "_id" = some (Json.str "7") ∧
    entitySave bookVariant saveDemoEntity =
      (Except.ok (Json.obj []),
       [⟨Method.PUT, "http://server/book/7",
         some (Json.obj [("x", Json.num 3)]), some (Json.str "abc")⟩],
       saveDemoEntity) :=
  ⟨rfl,
   entity_save_puts_regular_fields bookVariant saveDemoEntity (Json.str "7") rfl⟩

/-- C8: `create()` POSTs the instance's entire field mapping — including
`_`-prefixed entries — to the variant's link, and when the decoded
response is an object, merges every one of its bindings into the
instance's field mapping in place (`fields.update(response)`), returning
the decoded response. -/
theorem entity_create_posts_and_merges (v : EntityVariant Client)
    (e : EntityInstance) (kvs : List (String × Json))
    (h : (clientPost v.server v.link (Json.obj e.fields)).1 =
      Except.ok (Json.obj kvs)) :
    entityCreate v e =
      (Except.ok (Json.obj kvs),
       [⟨Method.POST, joinUrl v.server.url v.link, some (Json.obj e.fields),
         none⟩],
       { e with fields := dictUpdate e.fields kvs }) := by
  simp only [clientPost] at h
  simp [entityCreate, clientPost, h]

/-- C8 witness: creating a fresh instance POSTs all of its fields
(`x` and `_tmp`) and folds the server-assigned `_id`/`_etag` into the
mapping, which then answers attribute reads. -/
theorem entity_create_posts_and_merges_witness :
    (clientPost createBookVariant.server createBookVariant.link
       (Json.obj freshDemoEntity.fields)).1 =
      Except.ok (Json.obj [("_id", Json.str "42"), ("_etag", Json.str "t1")]) ∧
    entityCreate createBookVariant freshDemoEntity =
      (Except.ok (Json.obj [("_id", Json.str "42"), ("_etag", Json.str "t1")]),
       [⟨Method.POST, "http://server/book",
         some (Json.obj [("x", Json.num 1), ("_tmp", Json.num 0)]), none⟩],
       { freshDemoEntity with
         fields := [("x", Json.num 1), ("_tmp", Json.num 0),
                    ("_id", Json.str "42"), ("_etag", Json.str "t1")] }) :=
  ⟨rfl,
   entity_create_posts_and_merges createBookVariant freshDemoEntity
     [("_id", Json.str "42"), ("_etag", Json.str "t1")] rfl⟩

/-- C3 (amended): `Client.delete` performs a GET immediately followed by
a DELETE on the same route (with the etag as `If-Match` when non-null),
and the synthesized response carries the DELETE's status code and the
GET's body; after `validate_and_jsonify`, the call raises `HttpError`
exactly when the DELETE's status is a 4xx/5xx — the GET's status code is
never checked, only its body is passed through. -/
theorem client_delete_characterization (cl : Client) (route : String)
    (etag : Option Json) :
    deleteInner cl route etag =
      (⟨(cl.session ⟨Method.DELETE, joinUrl cl.url route, none, etag⟩).status_code,
        (cl.session ⟨Method.GET, joinUrl cl.url route, none, none⟩).body⟩,
       [⟨Method.GET, joinUrl cl.url route, none, none⟩,
        ⟨Method.DELETE, joinUrl cl.url route, none, etag⟩]) ∧
    clientDelete cl route etag =
      ((if isErrorStatus
            (cl.session
              ⟨Method.DELETE, joinUrl cl.url route, none, etag⟩).status_code then
          Except.error (ClientError.httpError
            (cl.session
              ⟨Method.DELETE, joinUrl cl.url route, none, etag⟩).status_code)
        else
          Except.ok
            (cl.session ⟨Method.GET, joinUrl cl.url route, none, none⟩).body),
       [⟨Method.GET, joinUrl cl.url route, none, none⟩,
        ⟨Method.DELETE, joinUrl cl.url route, none, etag⟩]) :=
  ⟨rfl, rfl⟩

/-- C3 counterexample: on a transport whose GET answers 404 (an error
status) while the DELETE answers 204, `Client.delete` does not raise —
it returns the failed GET's body — refuting the claim that a non-2xx GET
raises `HttpError`. -/
theorem client_delete_get_failure_cex :
    (clientDelete getFailClient "book/1" none).1 =
      Except.ok (Json.str "last row") ∧
    (getFailClient.session
      ⟨Method.GET, "http://server/book/1", none, none⟩).status_code = 404 ∧
    isErrorStatus 404 = true :=
  ⟨rfl, rfl, by decide⟩

/-- C4 (amended): the GET of `where`/`embedded` is issued eagerly, at the
time the method is called: on a transport on which every request fails
with status `s`, both calls raise `HttpError s` at construction time,
having issued exactly the one GET to the filter-encoded link.  (Only the
per-row instance construction is deferred to iteration; the generator
itself issues no request.) -/
theorem where_embedded_raise_at_call (v : EntityVariant Client)
    (options : Option String) (kwargs : List (String × Json)) (s : Nat)
    (h : ∀ r : Request, v.server.session r = ⟨s, Json.null⟩)
    (hs : isErrorStatus s = true) :
    entityWhere v options kwargs =
      (Except.error (ClientError.httpError s),
       [⟨Method.GET,
         joinUrl v.server.url
           (match options with
            | none => v.link ++ "?where=" ++ jsonDumps (Json.obj kwargs)
            | some o =>
              v.link ++ "?where=" ++ jsonDumps (Json.obj kwargs) ++ "&" ++ o),
         none, none⟩]) ∧
    entityEmbedded v options kwargs =
      (Except.error (ClientError.httpError s),
       [⟨Method.GET,
         joinUrl v.server.url
           (match options with
            | none => v.link ++ "?embedded=" ++ jsonDumps (Json.obj kwargs)
            | some o =>
              v.link ++ "?embedded=" ++ jsonDumps (Json.obj kwargs) ++ "&" ++ o),
         none, none⟩]) := by
  constructor <;> cases options <;>
    simp [entityWhere, entityEmbedded, fetchItems, clientGet, validateAndJsonify,
      h, hs]

/-- C4 witness: on the all-failing transport, a parameterless `where`
raises `HttpError 500` the moment it is called, after one GET to
`book?where=` followed by the empty JSON object. -/
theorem where_embedded_raise_at_call_witness :
    isErrorStatus 500 = true ∧
    entityWhere failBookVariant none [] =
      (Except.error (ClientError.httpError 500),
       [⟨Method.GET, "http://server/book?where=\x7b\x7d", none, none⟩]) :=
  ⟨by decide,
   (where_embedded_raise_at_call failBookVariant none [] 500 (fun _ => rfl)
      (by decide)).1⟩

/-- C4 counterexample: the failed query raises at construction time — the
value returned by the `where`/`embedded` call itself is already the
`HttpError`, not a lazily-failing sequence — refuting the claim that the
failure surfaces only on first iteration. -/
theorem where_raises_at_construction_cex :
    (entityWhere failBookVariant none []).1 =
      Except.error (ClientError.httpError 500) ∧
    (entityEmbedded failBookVariant none []).1 =
      Except.error (ClientError.httpError 500) :=
  ⟨rfl, rfl⟩

theorem whereParamLink (L d : String) :
    L ++ "?" ++ "where" ++ "=" ++ d = L ++ "?where=" ++ d := by
  have h2 : ("?" : String) ++ ("where" ++ "=") = "?where=" := by decide
  rw [String.append_assoc (L ++ "?") "where" "=",
    String.append_assoc L "?" ("where" ++ "="), h2]

theorem embeddedParamLink (L d : String) :
    L ++ "?" ++ "embedded" ++ "=" ++ d = L ++ "?embedded=" ++ d := by
  have h2 : ("?" : String) ++ ("embedded" ++ "=") = "?embedded=" := by decide
  rw [String.append_assoc (L ++ "?") "embedded" "=",
    String.append_assoc L "?" ("embedded" ++ "="), h2]

/-- C9: `embedded` behaves identically to `where` except that the
JSON-encoded filters go under the `embedded=` query parameter instead of
`where=`: both equal the spec-modelled `queryVia` (one eager GET to
`link?param=JSON-filters` with options appended after `&`, `_items`
unwrapped, rows pending in order) at their respective parameter names,
for every variant, option string and filter set. -/
theorem where_embedded_refinement (v : EntityVariant Client)
    (options : Option String) (kwargs : List (String × Json)) :
    entityWhere v options kwargs = queryVia "where" v options kwargs ∧
    entityEmbedded v options kwargs = queryVia "embedded" v options kwargs := by
  constructor <;> cases options <;>
    simp only [entityWhere, entityEmbedded, queryVia, whereParamLink,
      embeddedParamLink]

theorem spawnFold_lookup {σ : Type} (srv : σ) (l : List ResourceDescriptor)
    (init : List (String × EntityVariant σ)) (k : String) :
    assocLookup
      (l.foldl
        (fun entities child =>
          dictInsert entities (normalizeTitle child.title)
            (⟨normalizeTitle child.title, child.href, srv⟩ : EntityVariant σ))
        init) k =
      (match l.reverse.find? (fun c => normalizeTitle c.title == k) with
       | some c => some ⟨normalizeTitle c.title, c.href, srv⟩
       | none => assocLookup init k) := by
  have h := foldl_dictInsert_lookup (fun c : ResourceDescriptor => normalizeTitle c.title)
    (fun c : ResourceDescriptor => (⟨normalizeTitle c.title, c.href, srv⟩ : EntityVariant σ))
    l init k
  rw [h]
  cases l.reverse.find? (fun c => normalizeTitle c.title == k) <;> rfl

theorem clientInitEntities_lookup {σ : Type} (srv : σ)
    (children : List ResourceDescriptor) (k : String) :
    clientGetattr (clientInitEntities srv children) k =
      ((children ++ extraEntities).reverse.find?
        (fun c => normalizeTitle c.title == k)).map
        (fun c => (⟨normalizeTitle c.title, c.href, srv⟩ : EntityVariant σ)) := by
  unfold clientGetattr clientInitEntities spawn_entities
  show assocLookup
      (List.foldl
        (fun entities child =>
          dictInsert entities (normalizeTitle child.title)
            (⟨normalizeTitle child.title, child.href, srv⟩ : EntityVariant σ))
        [] (children ++ extraEntities)) k = _
  rw [spawnFold_lookup]
  cases (children ++ extraEntities).reverse.find?
      (fun c => normalizeTitle c.title == k) <;>
    simp [assocLookup]

/-- C1 (amended): provided no two merged entries (discovery children plus
the injected pseudo-resources) share a normalized title, every merged
entry's normalized (title-cased, underscore-stripped) title resolves as a
client attribute to an entity variant carrying exactly that entry's
`href` as `link` and the constructing client as `server`; and entries
with different normalized titles resolve to distinct variants. -/
theorem client_exposes_normalized_entries {σ : Type} (srv : σ)
    (children : List ResourceDescriptor) (e : ResourceDescriptor)
    (hmem : e ∈ children ++ extraEntities)
    (hnodup : ((children ++ extraEntities).map
      (fun c => normalizeTitle c.title)).Nodup) :
    clientGetattr (clientInitEntities srv children) (normalizeTitle e.title) =
      some ⟨normalizeTitle e.title, e.href, srv⟩ ∧
    ∀ e' ∈ children ++ extraEntities,
      normalizeTitle e'.title ≠ normalizeTitle e.title →
      clientGetattr (clientInitEntities srv children)
          (normalizeTitle e'.title) ≠
        clientGetattr (clientInitEntities srv children)
          (normalizeTitle e.title) := by
  have main : ∀ x ∈ children ++ extraEntities,
      clientGetattr (clientInitEntities srv children) (normalizeTitle x.title) =
        some ⟨normalizeTitle x.title, x.href, srv⟩ := by
    intro x hx
    rw [clientInitEntities_lookup]
    have hxrev : x ∈ (children ++ extraEntities).reverse :=
      List.mem_reverse.mpr hx
    have hsome : ((children ++ extraEntities).reverse.find?
        (fun c => normalizeTitle c.title == normalizeTitle x.title)).isSome :=
      List.find?_isSome.mpr ⟨x, hxrev, by simp⟩
    obtain ⟨c, hc⟩ := Option.isSome_iff_exists.mp hsome
    have hpc : normalizeTitle c.title = normalizeTitle x.title := by
      have := List.find?_some hc
      simpa using this
    have hcmem : c ∈ children ++ extraEntities :=
      List.mem_reverse.mp (List.mem_of_find?_eq_some hc)
    have hceq : c = x :=
      List.inj_on_of_nodup_map hnodup hcmem hx hpc
    rw [hc, hceq]
    simp
  refine ⟨main e hmem, ?_⟩
  intro e' hmem' hne heq
  rw [main e hmem, main e' hmem'] at heq
  exact hne (congrArg (fun o => (o.map (fun v => v.name)).getD "") heq)

/-- C1 witness: a discovered `Book` resource (alongside the injected
`Measurement`) is exposed as the `Book` attribute, bound to link `book`
and to the constructing client. -/
theorem client_exposes_normalized_entries_witness :
    (⟨"Book", "book"⟩ : ResourceDescriptor) ∈
      ([⟨"Book", "book"⟩] ++ extraEntities) ∧
    clientGetattr (clientInitEntities () [⟨"Book", "book"⟩])
      (normalizeTitle "Book") = some ⟨"Book", "book", ()⟩ :=
  ⟨by decide,
   (client_exposes_normalized_entries () [⟨"Book", "book"⟩] ⟨"Book", "book"⟩
      (by decide) (by decide)).1⟩

/-- C1 counterexample: when discovery itself reports a resource titled
`measurement` with href `influx/series`, that merged entry's normalized
title `Measurement` resolves to the *injected* pseudo-resource's variant
(link `measurement`), not to a variant carrying the entry's own href —
refuting the unqualified claim for every merged entry. -/
theorem client_exposes_normalized_entries_cex :
    (⟨"measurement", "influx/series"⟩ : ResourceDescriptor) ∈
      ([⟨"measurement", "influx/series"⟩] ++ extraEntities) ∧
    clientGetattr (clientInitEntities () [⟨"measurement", "influx/series"⟩])
      (normalizeTitle "measurement") =
      some ⟨"Measurement", "measurement", ()⟩ ∧
    (⟨"Measurement", "measurement", ()⟩ : EntityVariant Unit) ≠
      ⟨normalizeTitle "measurement", "influx/series", ()⟩ :=
  ⟨by decide, rfl, by decide⟩

/-- C10: the client's entity map holds exactly one variant per normalized
name (its keys are nodup), and a name resolves to the variant of the
*last* merged entry whose normalized title matches it — so, the injected
pseudo-resources being appended after the discovery children, an injected
entry such as `Measurement` silently shadows any discovered resource with
the same normalized title, as the concrete `influx/series` instance
shows. -/
theorem entity_map_later_entry_wins {σ : Type} (srv : σ)
    (children : List ResourceDescriptor) (name : String) :
    ((clientInitEntities srv children).map Prod.fst).Nodup ∧
    clientGetattr (clientInitEntities srv children) name =
      ((children ++ extraEntities).reverse.find?
        (fun c => normalizeTitle c.title == name)).map
        (fun c => (⟨normalizeTitle c.title, c.href, srv⟩ : EntityVariant σ)) ∧
    clientGetattr (clientInitEntities () [⟨"measurement", "influx/series"⟩])
      "Measurement" = some ⟨"Measurement", "measurement", ()⟩ := by
  refine ⟨?_, clientInitEntities_lookup srv children name, rfl⟩
  unfold clientInitEntities spawn_entities
  exact foldl_dictInsert_keys_nodup _ _ _ [] (by simp)
